import Mathlib

/-!
Verification of the MobxPromise invocation-lifecycle state machine.

The development shallowly embeds `src/MobxPromise.ts`.  The observable state
of one cell (the fields `invokeId`, `_latestInvokeId`, `internalStatus`,
`internalResult`, `internalError`, `synchronousResult`, and the cached value
of the computed `latestInvokeId`) is `CellState`.  The surrounding browser
environment (the `window.setTimeout` id counter, the set of scheduled
`setPending` timeouts, and the promise continuations attached in
`setPending`) together with the cell is `Sys`; callback dispatches are
recorded in an event log, and a ghost list `committed` records every
invocation id whose outcome has been committed.  The derived accessors
`status` / `peekStatus` / `result` / `error` are pure functions of the cell
state and of a snapshot of the await-list, returning alongside their value a
flag telling whether evaluating them reads the computed `latestInvokeId`
(i.e. forces the invocation trigger).
-/

namespace MobxPromise

/-- The three statuses of `MobxPromiseStatus`. -/
inductive Status where
  | pending
  | complete
  | error
deriving DecidableEq, Repr

/-- A snapshot of one element of the await-list: the three read-only fields
of the `MobxPromiseUnionType` interface that `MobxPromiseImpl` consults on
its dependencies.  The union type allows a `complete` member to carry a
non-null `error`. -/
structure DepSnap (E : Type) where
  status : Status
  peekStatus : Status
  error : Option E
deriving DecidableEq, Repr

/-- Constructor-time configuration of a cell: whether `onResult` / `onError`
callbacks were supplied, and the `defaultResult`. -/
structure Cfg (R E : Type) where
  hasOnResult : Bool
  hasOnError : Bool
  defaultResult : Option R
deriving DecidableEq, Repr

/-- The mutable fields of `MobxPromiseImpl`.  `cachedLatest` is the cached
value of the computed getter `latestInvokeId`; `latestReg` is the field
`_latestInvokeId` holding the last scheduled `setPending` timeout id. -/
structure CellState (R E : Type) where
  invokeId : Nat
  latestReg : Nat
  internalStatus : Status
  internalResult : Option R
  internalError : Option E
  synchronousResult : Bool
  cachedLatest : Nat
deriving DecidableEq, Repr

/-- Field initializers of `MobxPromiseImpl`. -/
def initCell (R E : Type) : CellState R E :=
  ⟨0, 0, Status.pending, none, none, false, 0⟩

/-- First element of a status list that is not `complete` (the dependency
scan `for (let status of this.await().map(mp => mp.status)) if (status !==
'complete') return status`). -/
def firstNonComplete (sts : List Status) : Option Status :=
  sts.find? (fun st => st != Status.complete)

/-- Body of the staleness adjustment in `_statusThatAlwaysTriggers`: start
from `internalStatus`, force `pending` when the cached `latestInvokeId`
differs from `invokeId`, and force `complete` when `synchronousResult`. -/
def ownStatus (c : CellState R E) : Status :=
  let st := c.internalStatus
  let st := if c.cachedLatest ≠ c.invokeId then Status.pending else st
  if c.synchronousResult then Status.complete else st

/-- `_statusThatAlwaysTriggers`, evaluated against a snapshot `aw` of the
await-list (`none` when no `await` is configured).  The second component
records whether the body reads the computed `latestInvokeId`, i.e. whether
it forces the invocation trigger. -/
def statusThatAlwaysTriggers (aw : Option (List (DepSnap E))) (c : CellState R E) :
    Status × Bool :=
  match aw with
  | some deps =>
    match firstNonComplete (deps.map (·.status)) with
    | some st => (st, false)
    | none => (ownStatus c, true)
  | none => (ownStatus c, true)

/-- The `status` getter (same value as `_statusThatAlwaysTriggers`). -/
def status (aw : Option (List (DepSnap E))) (c : CellState R E) : Status :=
  (statusThatAlwaysTriggers aw c).1

/-- The `peekStatus` getter: dependency scan over the dependencies'
`peekStatus`, then the internal status with the synchronous override; its
body never reads `latestInvokeId`, so the trigger flag is always `false`. -/
def peekStatus (aw : Option (List (DepSnap E))) (c : CellState R E) :
    Status × Bool :=
  match aw with
  | some deps =>
    match firstNonComplete (deps.map (·.peekStatus)) with
    | some st => (st, false)
    | none => ((if c.synchronousResult then Status.complete else c.internalStatus), false)
  | none => ((if c.synchronousResult then Status.complete else c.internalStatus), false)

/-- The `result` getter: reads `_statusThatAlwaysTriggers` (hence inherits
its trigger flag), substitutes `defaultResult` when the status is `error`
or `internalResult == null`, and returns `internalResult` otherwise. -/
def result (cfg : Cfg R E) (aw : Option (List (DepSnap E))) (c : CellState R E) :
    Option R × Bool :=
  let s := statusThatAlwaysTriggers aw c
  (if s.1 == Status.error || c.internalResult.isNone then cfg.defaultResult
   else c.internalResult, s.2)

/-- First non-null error among the dependency snapshots (the scan
`for (let error of this.await().map(mp => mp.error)) if (error) return
error`). -/
def firstDepError (deps : List (DepSnap E)) : Option (Option E) :=
  (deps.map (·.error)).find? (fun e => e.isSome)

/-- The `error` getter: reads `_statusThatAlwaysTriggers` first (hence its
trigger flag); when that status is not `complete` and an await-list is
configured, returns the first non-null dependency error; `undefined` when
`synchronousResult`; otherwise `internalError`. -/
def error (aw : Option (List (DepSnap E))) (c : CellState R E) :
    Option E × Bool :=
  let s := statusThatAlwaysTriggers aw c
  let own : Option E := if c.synchronousResult then none else c.internalError
  match aw with
  | some deps =>
    if s.1 ≠ Status.complete then
      match firstDepError deps with
      | some e => (e, s.2)
      | none => (own, s.2)
    else (own, s.2)
  | none => (own, s.2)

/-- Behaviour of one producer call: either it calls the `resolveSync`
callback with a value before returning, or it only returns a promise. -/
inductive ProducerAct (R : Type) where
  | sync (v : R)
  | async
deriving DecidableEq, Repr

/-- Settlement of a promise: fulfilled with a value or rejected with an
error. -/
inductive Outcome (R E : Type) where
  | success (v : R)
  | failure (e : E)
deriving DecidableEq, Repr

/-- Callback dispatches, recorded in order.  `onResultScheduled` is the
`setTimeout(() => this.onResult!(internalResult))` of the synchronous
branch; `onResult` / `onError` are the calls made inside `setComplete` /
`setError`. -/
inductive Ev (R E : Type) where
  | onResultScheduled (v : Option R)
  | onResult (v : Option R)
  | onError (e : E)
deriving DecidableEq, Repr

/-- One cell together with its environment.  `timeouts` holds the scheduled
`setPending` calls as pairs (timer id, invocation index); `attached` holds
the promise continuations attached in `setPending` as pairs (invocation
index, tagged invokeId).  `nextTimer` is the browser's `setTimeout` id
counter (ids start at 1); `nextEval` numbers producer invocations so that
each invocation's returned promise has an identity.  `committed` is a ghost
list of every invocation id whose outcome has been committed (either a
synchronous success or a `setComplete`/`setError` that passed the guard). -/
structure Sys (R E : Type) where
  cell : CellState R E
  nextTimer : Nat
  nextEval : Nat
  timeouts : List (Nat × Nat)
  attached : List (Nat × Nat)
  committed : List Nat
  log : List (Ev R E)
deriving DecidableEq, Repr

/-- Initial system: fresh cell, timer ids from 1, invocation indices
from 1. -/
def initSys (R E : Type) : Sys R E :=
  ⟨initCell R E, 1, 1, [], [], [], []⟩

/-- `setComplete(invokeId, result)`: only when the id matches the current
`invokeId`, commit the value, clear the error, set the status to
`complete`, and call `onResult(this.result)` with the post-commit
`result`. -/
def setComplete (cfg : Cfg R E) (invokeId : Nat) (res : R) (s : Sys R E) : Sys R E :=
  if invokeId = s.cell.invokeId then
    let c := { s.cell with
      internalResult := some res
      internalError := none
      internalStatus := Status.complete }
    { s with
      cell := c
      committed := invokeId :: s.committed
      log := s.log ++ (if cfg.hasOnResult then [Ev.onResult (result cfg none c).1] else []) }
  else s

/-- `setError(invokeId, error)`: only when the id matches the current
`invokeId`, commit the error, clear the result, set the status to `error`,
and call `onError(error)`. -/
def setError (cfg : Cfg R E) (invokeId : Nat) (err : E) (s : Sys R E) : Sys R E :=
  if invokeId = s.cell.invokeId then
    let c := { s.cell with
      internalError := some err
      internalResult := none
      internalStatus := Status.error }
    { s with
      cell := c
      committed := invokeId :: s.committed
      log := s.log ++ (if cfg.hasOnError then [Ev.onError err] else []) }
  else s

/-- `setPending(invokeId, promise)`: record the invocation id, attach the
promise continuations tagged with that id, and set the internal status to
`pending`.  `inv` is the invocation index identifying the promise. -/
def setPending (invokeId : Nat) (inv : Nat) (s : Sys R E) : Sys R E :=
  { s with
    cell := { s.cell with invokeId := invokeId, internalStatus := Status.pending }
    attached := (inv, invokeId) :: s.attached }

/-- One (re)evaluation of the computed `latestInvokeId`: clear the timeout
registered in `_latestInvokeId`, reset `synchronousResult`, call the
producer once.  If the producer called `resolveSync` before returning
(`ProducerAct.sync v`): `synchronousResult` and `internalResult` were set by
the callback, `invokeId` is incremented, the `onResult` call is scheduled
with a `setTimeout` (consuming a timer id) when configured, and the getter
returns (caches) the new `invokeId`.  Otherwise a fresh timer id is minted
for the deferred `setPending`, stored in `_latestInvokeId`, and returned. -/
def evalLatestInvokeId (cfg : Cfg R E) (p : ProducerAct R) (s : Sys R E) : Sys R E :=
  let timeouts := s.timeouts.filter (fun t => t.1 != s.cell.latestReg)
  match p with
  | ProducerAct.sync v =>
    let c := { s.cell with
      synchronousResult := true
      internalResult := some v
      invokeId := s.cell.invokeId + 1
      cachedLatest := s.cell.invokeId + 1 }
    { s with
      cell := c
      timeouts := timeouts
      nextEval := s.nextEval + 1
      committed := (s.cell.invokeId + 1) :: s.committed
      nextTimer := if cfg.hasOnResult then s.nextTimer + 1 else s.nextTimer
      log := s.log ++ (if cfg.hasOnResult then [Ev.onResultScheduled (some v)] else []) }
  | ProducerAct.async =>
    { s with
      cell := { s.cell with
        synchronousResult := false
        latestReg := s.nextTimer
        cachedLatest := s.nextTimer }
      timeouts := (s.nextTimer, s.nextEval) :: timeouts
      nextTimer := s.nextTimer + 1
      nextEval := s.nextEval + 1 }

/-- Firing of the timeout with id `tid`: if it is still scheduled, remove it
and run `setPending` with that id and the invocation it belongs to;
otherwise (cleared or already fired) nothing happens. -/
def fireTimeout (tid : Nat) (s : Sys R E) : Sys R E :=
  match s.timeouts.find? (fun t => t.1 == tid) with
  | some te =>
    setPending tid te.2 { s with timeouts := s.timeouts.filter (fun t => t.1 != tid) }
  | none => s

/-- Settlement of the promise returned by invocation `inv`: if continuations
are attached (i.e. `setPending` ran for it), they run `setComplete` /
`setError` with the invokeId they were tagged with; a promise settles at
most once, and a promise without attached continuations changes nothing. -/
def settleProm (cfg : Cfg R E) (inv : Nat) (o : Outcome R E) (s : Sys R E) : Sys R E :=
  match s.attached.find? (fun a => a.1 == inv) with
  | some pr =>
    let s1 := { s with attached := s.attached.filter (fun a => a.1 != inv) }
    match o with
    | Outcome.success v => setComplete cfg pr.2 v s1
    | Outcome.failure e => setError cfg pr.2 e s1
  | none => s

/-- Environment actions: a (re)evaluation of `latestInvokeId` (driven by
reactive invalidation plus a read of `status`/`result`/`error`), the firing
of a `setTimeout`, or the settlement of a producer promise. -/
inductive Act (R E : Type) where
  | eval (p : ProducerAct R)
  | fire (tid : Nat)
  | settle (inv : Nat) (o : Outcome R E)
deriving DecidableEq, Repr

/-- One step of the system. -/
def step (cfg : Cfg R E) (s : Sys R E) (a : Act R E) : Sys R E :=
  match a with
  | Act.eval p => evalLatestInvokeId cfg p s
  | Act.fire tid => fireTimeout tid s
  | Act.settle inv o => settleProm cfg inv o s

/-- Execution of a list of actions. -/
def run (cfg : Cfg R E) (acts : List (Act R E)) (s : Sys R E) : Sys R E :=
  acts.foldl (step cfg) s

/-- Normalized constructor input (`MobxPromiseInputParams`): `S` stands for
the `resolveSync` argument type, `P` for `PromiseLike<R>`, `A` for the
await function, `Cb`/`Eb` for the `onResult`/`onError` callback types. -/
structure ParamsRec (S P R A Cb Eb : Type) where
  await : Option A
  invoke : S → P
  default : Option R
  onResult : Option Cb
  onError : Option Eb

/-- The three shapes of `MobxPromiseInputUnion`: a bare producer function, a
promise-like value, or a params record. -/
inductive MPInput (S P R A Cb Eb : Type) where
  | func (f : S → P)
  | promiseLike (p : P)
  | params (rec : ParamsRec S P R A Cb Eb)

/-- `MobxPromiseImpl.normalizeInput`: a function becomes
`{invoke: input, default: defaultResult}`; a promise-like becomes
`{invoke: () => input, default: defaultResult}`; a params record is
returned as is, with `default` overridden only when `defaultResult` is not
`undefined`. -/
def normalizeInput (input : MPInput S P R A Cb Eb) (defaultResult : Option R) :
    ParamsRec S P R A Cb Eb :=
  match input with
  | MPInput.func f => ⟨none, f, defaultResult, none, none⟩
  | MPInput.promiseLike p => ⟨none, fun _ => p, defaultResult, none, none⟩
  | MPInput.params rec =>
    match defaultResult with
    | some d => { rec with default := some d }
    | none => rec

/-- Invocation indices appearing in `timeouts` and `attached` are below the
`nextEval` counter. -/
def idxOk (s : Sys R E) : Prop :=
  (∀ t ∈ s.timeouts, t.2 < s.nextEval) ∧ (∀ a ∈ s.attached, a.1 < s.nextEval)

/-- Invocation index `n` is dead: below the counter and absent from both the
scheduled timeouts and the attached continuations, so its promise can never
act on the cell again. -/
def freshIdx (n : Nat) (s : Sys R E) : Prop :=
  n < s.nextEval ∧ (∀ t ∈ s.timeouts, t.2 ≠ n) ∧ (∀ a ∈ s.attached, a.1 ≠ n)

/-- Whenever `internalStatus` is not `pending`, the current `invokeId` has a
committed outcome. -/
def committedInv (s : Sys R E) : Prop :=
  s.cell.internalStatus ≠ Status.pending → s.cell.invokeId ∈ s.committed

theorem run_cons_eq (cfg : Cfg R E) (a : Act R E) (acts : List (Act R E)) (s : Sys R E) :
    run cfg (a :: acts) s = run cfg acts (step cfg s a) := rfl

theorem setComplete_parts (cfg : Cfg R E) (i : Nat) (v : R) (s : Sys R E) :
    (setComplete cfg i v s).timeouts = s.timeouts ∧
    (setComplete cfg i v s).attached = s.attached ∧
    (setComplete cfg i v s).nextEval = s.nextEval ∧
    (setComplete cfg i v s).nextTimer = s.nextTimer := by
  simp only [setComplete]
  split <;> simp

theorem setError_parts (cfg : Cfg R E) (i : Nat) (e : E) (s : Sys R E) :
    (setError cfg i e s).timeouts = s.timeouts ∧
    (setError cfg i e s).attached = s.attached ∧
    (setError cfg i e s).nextEval = s.nextEval ∧
    (setError cfg i e s).nextTimer = s.nextTimer := by
  simp only [setError]
  split <;> simp

theorem idxOk_step (cfg : Cfg R E) (s : Sys R E) (a : Act R E) (h : idxOk s) :
    idxOk (step cfg s a) := by
  obtain ⟨h1, h2⟩ := h
  cases a with
  | eval p =>
    cases p with
    | sync v =>
      constructor
      · intro t ht
        simp only [step, evalLatestInvokeId] at ht ⊢
        exact Nat.lt_succ_of_lt (h1 t (List.mem_of_mem_filter ht))
      · intro a2 ha2
        simp only [step, evalLatestInvokeId] at ha2 ⊢
        exact Nat.lt_succ_of_lt (h2 a2 ha2)
    | async =>
      constructor
      · intro t ht
        simp only [step, evalLatestInvokeId] at ht ⊢
        rcases List.mem_cons.mp ht with hh | hh
        · rw [hh]; exact Nat.lt_succ_self _
        · exact Nat.lt_succ_of_lt (h1 t (List.mem_of_mem_filter hh))
      · intro a2 ha2
        simp only [step, evalLatestInvokeId] at ha2 ⊢
        exact Nat.lt_succ_of_lt (h2 a2 ha2)
  | fire tid =>
    cases hf : s.timeouts.find? (fun t => t.1 == tid) with
    | none =>
      constructor
      · intro t ht
        simp only [step, fireTimeout, hf] at ht ⊢
        exact h1 t ht
      · intro a2 ha2
        simp only [step, fireTimeout, hf] at ha2 ⊢
        exact h2 a2 ha2
    | some te =>
      constructor
      · intro t ht
        simp only [step, fireTimeout, hf, setPending] at ht ⊢
        exact h1 t (List.mem_of_mem_filter ht)
      · intro a2 ha2
        simp only [step, fireTimeout, hf, setPending] at ha2 ⊢
        rcases List.mem_cons.mp ha2 with hh | hh
        · rw [hh]
          exact h1 te (List.mem_of_find?_eq_some hf)
        · exact h2 a2 hh
  | settle inv o =>
    cases hf : s.attached.find? (fun a2 => a2.1 == inv) with
    | none =>
      constructor
      · intro t ht
        simp only [step, settleProm, hf] at ht ⊢
        exact h1 t ht
      · intro a2 ha2
        simp only [step, settleProm, hf] at ha2 ⊢
        exact h2 a2 ha2
    | some pr =>
      have hto : (step cfg s (Act.settle inv o)).timeouts = s.timeouts := by
        cases o with
        | success v2 =>
          simp only [step, settleProm, hf]
          exact (setComplete_parts cfg pr.2 v2 _).1
        | failure e2 =>
          simp only [step, settleProm, hf]
          exact (setError_parts cfg pr.2 e2 _).1
      have hat : (step cfg s (Act.settle inv o)).attached =
          s.attached.filter (fun a2 => a2.1 != inv) := by
        cases o with
        | success v2 =>
          simp only [step, settleProm, hf]
          exact (setComplete_parts cfg pr.2 v2 _).2.1
        | failure e2 =>
          simp only [step, settleProm, hf]
          exact (setError_parts cfg pr.2 e2 _).2.1
      have hne : (step cfg s (Act.settle inv o)).nextEval = s.nextEval := by
        cases o with
        | success v2 =>
          simp only [step, settleProm, hf]
          exact (setComplete_parts cfg pr.2 v2 _).2.2.1
        | failure e2 =>
          simp only [step, settleProm, hf]
          exact (setError_parts cfg pr.2 e2 _).2.2.1
      constructor
      · intro t ht
        rw [hto] at ht
        rw [hne]
        exact h1 t ht
      · intro a2 ha2
        rw [hat] at ha2
        rw [hne]
        exact h2 a2 (List.mem_of_mem_filter ha2)

theorem idxOk_run (cfg : Cfg R E) (acts : List (Act R E)) :
    ∀ s : Sys R E, idxOk s → idxOk (run cfg acts s) := by
  induction acts with
  | nil => exact fun s h => h
  | cons a acts ih => exact fun s h => ih (step cfg s a) (idxOk_step cfg s a h)

theorem idxOk_init : idxOk (initSys R E) := by
  constructor <;> intro x hx <;> simp [initSys] at hx

theorem freshIdx_step (cfg : Cfg R E) (n : Nat) (s : Sys R E) (a : Act R E)
    (h : freshIdx n s) : freshIdx n (step cfg s a) := by
  obtain ⟨h0, h1, h2⟩ := h
  cases a with
  | eval p =>
    cases p with
    | sync v =>
      refine ⟨?_, ?_, ?_⟩
      · simp only [step, evalLatestInvokeId]
        exact Nat.lt_succ_of_lt h0
      · intro t ht
        simp only [step, evalLatestInvokeId] at ht
        exact h1 t (List.mem_of_mem_filter ht)
      · intro a2 ha2
        simp only [step, evalLatestInvokeId] at ha2
        exact h2 a2 ha2
    | async =>
      refine ⟨?_, ?_, ?_⟩
      · simp only [step, evalLatestInvokeId]
        exact Nat.lt_succ_of_lt h0
      · intro t ht
        simp only [step, evalLatestInvokeId] at ht
        rcases List.mem_cons.mp ht with hh | hh
        · rw [hh]
          exact Nat.ne_of_gt h0
        · exact h1 t (List.mem_of_mem_filter hh)
      · intro a2 ha2
        simp only [step, evalLatestInvokeId] at ha2
        exact h2 a2 ha2
  | fire tid =>
    cases hf : s.timeouts.find? (fun t => t.1 == tid) with
    | none =>
      refine ⟨?_, ?_, ?_⟩ <;> simp only [step, fireTimeout, hf]
      · exact h0
      · exact h1
      · exact h2
    | some te =>
      refine ⟨?_, ?_, ?_⟩ <;> simp only [step, fireTimeout, hf, setPending]
      · exact h0
      · intro t ht
        exact h1 t (List.mem_of_mem_filter ht)
      · intro a2 ha2
        rcases List.mem_cons.mp ha2 with hh | hh
        · rw [hh]
          exact h1 te (List.mem_of_find?_eq_some hf)
        · exact h2 a2 hh
  | settle inv o =>
    cases hf : s.attached.find? (fun a2 => a2.1 == inv) with
    | none =>
      refine ⟨?_, ?_, ?_⟩ <;> simp only [step, settleProm, hf]
      · exact h0
      · exact h1
      · exact h2
    | some pr =>
      cases o with
      | success v2 =>
        refine ⟨?_, ?_, ?_⟩ <;> simp only [step, settleProm, hf]
        · rw [(setComplete_parts cfg pr.2 v2 _).2.2.1]
          exact h0
        · rw [(setComplete_parts cfg pr.2 v2 _).1]
          exact h1
        · rw [(setComplete_parts cfg pr.2 v2 _).2.1]
          intro a2 ha2
          exact h2 a2 (List.mem_of_mem_filter ha2)
      | failure e2 =>
        refine ⟨?_, ?_, ?_⟩ <;> simp only [step, settleProm, hf]
        · rw [(setError_parts cfg pr.2 e2 _).2.2.1]
          exact h0
        · rw [(setError_parts cfg pr.2 e2 _).1]
          exact h1
        · rw [(setError_parts cfg pr.2 e2 _).2.1]
          intro a2 ha2
          exact h2 a2 (List.mem_of_mem_filter ha2)

theorem freshIdx_run (cfg : Cfg R E) (n : Nat) (acts : List (Act R E)) :
    ∀ s : Sys R E, freshIdx n s → freshIdx n (run cfg acts s) := by
  induction acts with
  | nil => exact fun s h => h
  | cons a acts ih => exact fun s h => ih (step cfg s a) (freshIdx_step cfg n s a h)

theorem settleProm_of_freshIdx (cfg : Cfg R E) (n : Nat) (o : Outcome R E)
    (s : Sys R E) (h : freshIdx n s) : settleProm cfg n o s = s := by
  have hnone : s.attached.find? (fun a2 => a2.1 == n) = none := by
    apply List.find?_eq_none.mpr
    intro a2 ha2
    simpa using h.2.2 a2 ha2
  simp [settleProm, hnone]

theorem committedInv_step (cfg : Cfg R E) (s : Sys R E) (a : Act R E)
    (h : committedInv s) : committedInv (step cfg s a) := by
  cases a with
  | eval p =>
    cases p with
    | sync v =>
      intro _
      simp [step, evalLatestInvokeId]
    | async =>
      intro hst
      simp only [step, evalLatestInvokeId] at hst ⊢
      exact h hst
  | fire tid =>
    cases hf : s.timeouts.find? (fun t => t.1 == tid) with
    | none =>
      intro hst
      simp only [step, fireTimeout, hf] at hst ⊢
      exact h hst
    | some te =>
      intro hst
      simp only [step, fireTimeout, hf, setPending] at hst
      exact absurd rfl hst
  | settle inv o =>
    cases hf : s.attached.find? (fun a2 => a2.1 == inv) with
    | none =>
      intro hst
      simp only [step, settleProm, hf] at hst ⊢
      exact h hst
    | some pr =>
      cases o with
      | success v2 =>
        intro hst
        by_cases hg : pr.2 = s.cell.invokeId
        · simp only [step, settleProm, hf, setComplete, if_pos hg]
          rw [← hg]
          exact List.mem_cons_self _ _
        · simp only [step, settleProm, hf, setComplete, if_neg hg] at hst ⊢
          exact h hst
      | failure e2 =>
        intro hst
        by_cases hg : pr.2 = s.cell.invokeId
        · simp only [step, settleProm, hf, setError, if_pos hg]
          rw [← hg]
          exact List.mem_cons_self _ _
        · simp only [step, settleProm, hf, setError, if_neg hg] at hst ⊢
          exact h hst

theorem committedInv_run (cfg : Cfg R E) (acts : List (Act R E)) :
    committedInv (run cfg acts (initSys R E)) := by
  have aux : ∀ s : Sys R E, committedInv s → committedInv (run cfg acts s) := by
    induction acts with
    | nil => exact fun s h => h
    | cons a acts ih => exact fun s h => ih (step cfg s a) (committedInv_step cfg s a h)
  exact aux _ (fun hst => absurd rfl hst)

/-- C10: `normalizeInput` is total over the three input shapes; a function
input yields a record with that function as `invoke` and the supplied
`defaultResult` as `default`; a promise-like input yields a record whose
`invoke` always returns that same promise; a params record keeps its own
`default` when `defaultResult` is `undefined` and has it replaced otherwise,
with `await`, `invoke`, `onResult` and `onError` unchanged in every case. -/
theorem normalizeInput_spec (f : S → P) (p : P) (rec : ParamsRec S P R A Cb Eb)
    (d : Option R) (dv : R) (x : S) :
    normalizeInput (MPInput.func f : MPInput S P R A Cb Eb) d =
      (⟨none, f, d, none, none⟩ : ParamsRec S P R A Cb Eb) ∧
    (normalizeInput (MPInput.promiseLike p : MPInput S P R A Cb Eb) d).invoke x = p ∧
    (normalizeInput (MPInput.promiseLike p : MPInput S P R A Cb Eb) d).default = d ∧
    (normalizeInput (MPInput.promiseLike p : MPInput S P R A Cb Eb) d).await = none ∧
    (normalizeInput (MPInput.promiseLike p : MPInput S P R A Cb Eb) d).onResult = none ∧
    (normalizeInput (MPInput.promiseLike p : MPInput S P R A Cb Eb) d).onError = none ∧
    normalizeInput (MPInput.params rec) none = rec ∧
    (normalizeInput (MPInput.params rec) (some dv)).default = some dv ∧
    (normalizeInput (MPInput.params rec) (some dv)).await = rec.await ∧
    (normalizeInput (MPInput.params rec) (some dv)).invoke = rec.invoke ∧
    (normalizeInput (MPInput.params rec) (some dv)).onResult = rec.onResult ∧
    (normalizeInput (MPInput.params rec) (some dv)).onError = rec.onError :=
  ⟨rfl, rfl, rfl, rfl, rfl, rfl, rfl, rfl, rfl, rfl, rfl, rfl⟩

/-- C3: `setComplete(i, v)` and `setError(i, e)` are no-ops (fields and
callback log unchanged) when `i` differs from the current `invokeId`; when
`i` matches, `setComplete` commits the value, clears the error, sets the
status to `complete` and calls `onResult` with the post-commit `result`,
and `setError` commits the error, clears the result, sets the status to
`error` and calls `onError(e)`. -/
theorem setComplete_setError_guard (cfg : Cfg R E) (i : Nat) (v : R) (e : E)
    (s : Sys R E) :
    (i ≠ s.cell.invokeId → setComplete cfg i v s = s ∧ setError cfg i e s = s) ∧
    (i = s.cell.invokeId →
      (setComplete cfg i v s).cell.internalResult = some v ∧
      (setComplete cfg i v s).cell.internalError = none ∧
      (setComplete cfg i v s).cell.internalStatus = Status.complete ∧
      (setComplete cfg i v s).log = s.log ++
        (if cfg.hasOnResult then
          [Ev.onResult (result cfg none (setComplete cfg i v s).cell).1] else []) ∧
      (setError cfg i e s).cell.internalError = some e ∧
      (setError cfg i e s).cell.internalResult = none ∧
      (setError cfg i e s).cell.internalStatus = Status.error ∧
      (setError cfg i e s).log = s.log ++
        (if cfg.hasOnError then [Ev.onError e] else [])) := by
  constructor
  · intro h
    simp [setComplete, setError, h]
  · intro h
    simp [setComplete, setError, h]

/-- C3 witness: both branches exercised at concrete states. -/
theorem setComplete_setError_guard_witness :
    (setComplete (⟨true, true, some 0⟩ : Cfg Nat Nat) 5 7 (initSys Nat Nat) =
      initSys Nat Nat) ∧
    (setComplete (⟨true, true, some 0⟩ : Cfg Nat Nat) 0 7
      (initSys Nat Nat)).cell.internalResult = some 7 :=
  ⟨((setComplete_setError_guard (⟨true, true, some 0⟩ : Cfg Nat Nat) 5 7 9
      (initSys Nat Nat)).1 (by decide)).1,
   ((setComplete_setError_guard (⟨true, true, some 0⟩ : Cfg Nat Nat) 0 7 9
      (initSys Nat Nat)).2 (by decide)).1⟩

/-- C5: with an await-list configured, `_statusThatAlwaysTriggers` returns
the first non-complete dependency status (which is `pending` or `error`)
without forcing the invocation trigger; only when every dependency is
complete does its body read `latestInvokeId` (forcing the trigger) and
return the staleness-adjusted own status; and `result` forces the trigger
under exactly the same condition as `status`. -/
theorem status_dependency_gating (cfg : Cfg R E) (deps : List (DepSnap E))
    (c : CellState R E) (st : Status) :
    (firstNonComplete (deps.map (·.status)) = some st →
      statusThatAlwaysTriggers (some deps) c = (st, false) ∧
      (st = Status.pending ∨ st = Status.error)) ∧
    (firstNonComplete (deps.map (·.status)) = none →
      statusThatAlwaysTriggers (some deps) c = (ownStatus c, true)) ∧
    (firstNonComplete (deps.map (·.status)) = none ↔
      ∀ d ∈ deps, d.status = Status.complete) ∧
    (∀ aw : Option (List (DepSnap E)),
      (result cfg aw c).2 = (statusThatAlwaysTriggers aw c).2) := by
  refine ⟨?_, ?_, ?_, fun aw => rfl⟩
  · intro h
    refine ⟨by simp [statusThatAlwaysTriggers, h], ?_⟩
    have hne := List.find?_some h
    rw [bne_iff_ne] at hne
    cases st with
    | pending => exact Or.inl rfl
    | complete => exact absurd rfl hne
    | error => exact Or.inr rfl
  · intro h
    simp [statusThatAlwaysTriggers, h]
  · constructor
    · intro h d hd
      have := List.find?_eq_none.mp h d.status (List.mem_map_of_mem _ hd)
      simpa [bne_iff_ne] using this
    · intro h
      apply List.find?_eq_none.mpr
      intro st' hst'
      rcases List.mem_map.mp hst' with ⟨d, hd, rfl⟩
      simp [bne_iff_ne, h d hd]

/-- C5 witness: a pending dependency gates the trigger; all-complete
dependencies force it. -/
theorem status_dependency_gating_witness :
    statusThatAlwaysTriggers (some [(⟨Status.pending, Status.pending, none⟩ : DepSnap Nat)])
      (initCell Nat Nat) = (Status.pending, false) ∧
    statusThatAlwaysTriggers (some [(⟨Status.complete, Status.complete, none⟩ : DepSnap Nat)])
      (initCell Nat Nat) = (ownStatus (initCell Nat Nat), true) :=
  ⟨((status_dependency_gating (⟨true, true, some 0⟩ : Cfg Nat Nat) _ _ Status.pending).1
      (by decide)).1,
   (status_dependency_gating (⟨true, true, some 0⟩ : Cfg Nat Nat) _ (initCell Nat Nat)
      Status.pending).2.1 (by decide)⟩

/-- C7: `peekStatus` never reads the computed `latestInvokeId` (never forces
the invocation trigger) in any state; it scans the dependencies in order
returning the first non-complete dependency `peekStatus`, and on the
own-cell branch returns the internal status directly, with `complete`
whenever the last invocation resolved synchronously. -/
theorem peekStatus_never_triggers (deps : List (DepSnap E)) (c : CellState R E)
    (st : Status) (aw : Option (List (DepSnap E))) :
    (peekStatus aw c).2 = false ∧
    (firstNonComplete (deps.map (·.peekStatus)) = some st →
      peekStatus (some deps) c = (st, false)) ∧
    (firstNonComplete (deps.map (·.peekStatus)) = none →
      (peekStatus (some deps) c).1 =
        if c.synchronousResult then Status.complete else c.internalStatus) ∧
    ((peekStatus (none : Option (List (DepSnap E))) c).1 =
      if c.synchronousResult then Status.complete else c.internalStatus) := by
  refine ⟨?_, ?_, ?_, rfl⟩
  · cases aw with
    | none => rfl
    | some deps2 =>
      cases h : firstNonComplete (deps2.map (·.peekStatus)) with
      | none => simp [peekStatus, h]
      | some st2 => simp [peekStatus, h]
  · intro h
    simp [peekStatus, h]
  · intro h
    simp [peekStatus, h]

/-- C7 witness: concrete instances of the scan and the own-cell branch. -/
theorem peekStatus_never_triggers_witness :
    peekStatus (some [(⟨Status.complete, Status.error, some 1⟩ : DepSnap Nat)])
      (initCell Nat Nat) = (Status.error, false) ∧
    (peekStatus (some [(⟨Status.pending, Status.complete, none⟩ : DepSnap Nat)])
      (initCell Nat Nat)).1 = Status.pending :=
  ⟨(peekStatus_never_triggers _ (initCell Nat Nat) Status.error none).2.1 (by decide),
   by
    have := (peekStatus_never_triggers
      [(⟨Status.pending, Status.complete, none⟩ : DepSnap Nat)]
      (initCell Nat Nat) Status.error none).2.2.1 (by decide)
    simpa using this⟩

/-- C8 counterexample: the guard of the dependency error scan is the
combined status (`_statusThatAlwaysTriggers`), not "not all dependencies
complete".  With a single dependency whose status is `complete` but whose
`error` field is non-null (allowed by the union type), and the own cell
freshly triggered (combined status `pending`), `error` returns the
dependency's error although every dependency is complete, the last
invocation was not synchronous, and `internalError` is unset. -/
theorem error_scan_despite_deps_complete_cex :
    (DepSnap.status (⟨Status.complete, Status.complete, some 3⟩ : DepSnap Nat) =
      Status.complete) ∧
    (run (⟨false, false, none⟩ : Cfg Nat Nat) [Act.eval ProducerAct.async]
      (initSys Nat Nat)).cell.synchronousResult = false ∧
    (run (⟨false, false, none⟩ : Cfg Nat Nat) [Act.eval ProducerAct.async]
      (initSys Nat Nat)).cell.internalError = none ∧
    (error (some [(⟨Status.complete, Status.complete, some 3⟩ : DepSnap Nat)])
      (run (⟨false, false, none⟩ : Cfg Nat Nat) [Act.eval ProducerAct.async]
        (initSys Nat Nat)).cell).1 = some 3 := by
  decide

/-- C8 (amended): `error` scans the dependencies whenever an await-list is
configured and the combined, staleness-adjusted status is not `complete`
(not merely when some dependency is non-complete), returning the first
non-null dependency error; otherwise it is `undefined` when the most recent
invocation resolved synchronously and `internalError` else. -/
theorem error_scan_guard (deps : List (DepSnap E)) (c : CellState R E)
    (eo : Option E) :
    (∀ aw : Option (List (DepSnap E)), status aw c = Status.complete →
      (error aw c).1 = if c.synchronousResult then none else c.internalError) ∧
    ((error (none : Option (List (DepSnap E))) c).1 =
      if c.synchronousResult then none else c.internalError) ∧
    (status (some deps) c ≠ Status.complete → firstDepError deps = some eo →
      (error (some deps) c).1 = eo) ∧
    (status (some deps) c ≠ Status.complete → firstDepError deps = none →
      (error (some deps) c).1 = if c.synchronousResult then none else c.internalError) := by
  refine ⟨?_, rfl, ?_, ?_⟩
  · intro aw h
    cases aw with
    | none => rfl
    | some deps2 =>
      simp only [status] at h
      simp [error, h]
  · intro h hfind
    simp only [status] at h
    simp [error, h, hfind]
  · intro h hfind
    simp only [status] at h
    simp [error, h, hfind]

/-- C8 amended witness: a pending dependency carrying an error is surfaced;
a complete combined status consults the own state. -/
theorem error_scan_guard_witness :
    (error (some [(⟨Status.pending, Status.pending, some 4⟩ : DepSnap Nat)])
      (initCell Nat Nat)).1 = some 4 ∧
    (error (some [(⟨Status.complete, Status.complete, some 4⟩ : DepSnap Nat)])
      (⟨1, 1, Status.complete, some 5, none, false, 1⟩ : CellState Nat Nat)).1 = none :=
  ⟨(error_scan_guard [(⟨Status.pending, Status.pending, some 4⟩ : DepSnap Nat)]
      (initCell Nat Nat) (some 4)).2.2.1 (by decide) (by decide),
   (error_scan_guard [(⟨Status.complete, Status.complete, some 4⟩ : DepSnap Nat)]
      (⟨1, 1, Status.complete, some 5, none, false, 1⟩ : CellState Nat Nat) (some 4)).1
      (some _) (by decide)⟩

/-- C4 counterexample: after a successful commit (value 7), a failing
commit clears `internalResult`, so once a newer invocation is pending
(status `pending`, not `error`) `result` equals the configured default 99
although an invocation had committed the value 7 — the claimed
"last-known-good retained, never default after a successful commit" fails
after an intervening error. -/
theorem result_default_after_error_cex :
    (run (⟨false, false, some 99⟩ : Cfg Nat Nat)
      [Act.eval ProducerAct.async, Act.fire 1, Act.settle 1 (Outcome.success 7)]
      (initSys Nat Nat)).cell.internalResult = some 7 ∧
    status none (run (⟨false, false, some 99⟩ : Cfg Nat Nat)
      [Act.eval ProducerAct.async, Act.fire 1, Act.settle 1 (Outcome.success 7),
       Act.eval ProducerAct.async, Act.fire 2, Act.settle 2 (Outcome.failure 5),
       Act.eval ProducerAct.async]
      (initSys Nat Nat)).cell = Status.pending ∧
    (result (⟨false, false, some 99⟩ : Cfg Nat Nat) none
      (run (⟨false, false, some 99⟩ : Cfg Nat Nat)
        [Act.eval ProducerAct.async, Act.fire 1, Act.settle 1 (Outcome.success 7),
         Act.eval ProducerAct.async, Act.fire 2, Act.settle 2 (Outcome.failure 5),
         Act.eval ProducerAct.async]
        (initSys Nat Nat)).cell).1 = some 99 ∧
    (99 : Nat) ≠ 7 := by
  decide

/-- C4 (amended): `result` equals the configured default exactly when the
combined status is `error` or `internalResult` is unset; a newer
asynchronous trigger and its `setPending` leave `internalResult` untouched,
so the last committed value is retained while a newer invocation is
pending, but an error commit clears `internalResult`, so after an error the
default is substituted — even while a newer invocation is pending — until a
new value is committed. -/
theorem result_default_substitution (cfg : Cfg R E) (v : R) (e : E) (tid : Nat)
    (c : CellState R E) (s : Sys R E) :
    (status none c = Status.error → (result cfg none c).1 = cfg.defaultResult) ∧
    (c.internalResult = none → (result cfg none c).1 = cfg.defaultResult) ∧
    (c.internalResult = some v → status none c ≠ Status.error →
      (result cfg none c).1 = some v) ∧
    ((evalLatestInvokeId cfg ProducerAct.async s).cell.internalResult =
      s.cell.internalResult) ∧
    ((fireTimeout tid s).cell.internalResult = s.cell.internalResult) ∧
    ((setError cfg s.cell.invokeId e s).cell.internalResult = none) := by
  refine ⟨?_, ?_, ?_, rfl, ?_, by simp [setError]⟩
  · intro h
    simp only [status] at h
    simp [result, h]
  · intro h
    simp [result, h]
  · intro h hne
    simp only [status] at hne
    simp [result, h, hne]
  · cases hf : s.timeouts.find? (fun t => t.1 == tid) with
    | none => simp [fireTimeout, hf]
    | some te => simp [fireTimeout, hf, setPending]

/-- C4 amended witness: retention of a committed value while a newer
invocation is pending, and default substitution after clearing. -/
theorem result_default_substitution_witness :
    (result (⟨false, false, some 99⟩ : Cfg Nat Nat) none
      (⟨1, 2, Status.complete, some 7, none, false, 2⟩ : CellState Nat Nat)).1 = some 7 ∧
    (result (⟨false, false, some 99⟩ : Cfg Nat Nat) none
      (⟨1, 2, Status.pending, none, none, false, 2⟩ : CellState Nat Nat)).1 = some 99 :=
  ⟨(result_default_substitution (⟨false, false, some 99⟩ : Cfg Nat Nat) 7 0 0
      (⟨1, 2, Status.complete, some 7, none, false, 2⟩ : CellState Nat Nat)
      (initSys Nat Nat)).2.2.1 (by decide) (by decide),
   (result_default_substitution (⟨false, false, some 99⟩ : Cfg Nat Nat) 7 0 0
      (⟨1, 2, Status.pending, none, none, false, 2⟩ : CellState Nat Nat)
      (initSys Nat Nat)).2.1 (by decide)⟩

/-- C9 counterexample: `invokeId` is not strictly increasing.  Two
synchronous invocations bump it to 2 while the browser timer counter is
still 1; the next asynchronous invocation is assigned timer id 1, and when
its `setPending` fires, `invokeId` drops from 2 back to 1. -/
theorem invokeId_not_increasing_cex :
    (run (⟨false, false, none⟩ : Cfg Nat Nat)
      [Act.eval (ProducerAct.sync 5), Act.eval (ProducerAct.sync 6)]
      (initSys Nat Nat)).cell.invokeId = 2 ∧
    (run (⟨false, false, none⟩ : Cfg Nat Nat)
      [Act.eval (ProducerAct.sync 5), Act.eval (ProducerAct.sync 6),
       Act.eval ProducerAct.async, Act.fire 1]
      (initSys Nat Nat)).cell.invokeId = 1 := by
  decide

/-- C9 (amended): `invokeId` is bumped by exactly one on each synchronous
invocation; an asynchronous evaluation leaves it unchanged until the
deferred `setPending` timeout fires, which sets it to that invocation's
timer id and is effective at most once (a cancelled or already-fired
timeout is a no-op); promise settlements never change it.  `invokeId` is
not strictly increasing over time (see the counterexample). -/
theorem invokeId_update_discipline (cfg : Cfg R E) (v : R) (inv tid : Nat)
    (o : Outcome R E) (s : Sys R E) :
    ((evalLatestInvokeId cfg (ProducerAct.sync v) s).cell.invokeId =
      s.cell.invokeId + 1) ∧
    ((evalLatestInvokeId cfg ProducerAct.async s).cell.invokeId =
      s.cell.invokeId) ∧
    ((settleProm cfg inv o s).cell.invokeId = s.cell.invokeId) ∧
    ((fireTimeout tid s).cell.invokeId = tid ∨ fireTimeout tid s = s) ∧
    (fireTimeout tid (fireTimeout tid s) = fireTimeout tid s) := by
  have hfil : ∀ s2 : Sys R E,
      (s2.timeouts.filter (fun t => t.1 != tid)).find? (fun t => t.1 == tid) = none := by
    intro s2
    apply List.find?_eq_none.mpr
    intro t ht
    have := (List.mem_filter.mp ht).2
    simpa [bne_iff_ne] using this
  refine ⟨rfl, rfl, ?_, ?_, ?_⟩
  · cases hf : s.attached.find? (fun a => a.1 == inv) with
    | none => simp [settleProm, hf]
    | some pr =>
      cases o with
      | success v2 =>
        simp only [settleProm, hf, setComplete]
        split <;> rfl
      | failure e2 =>
        simp only [settleProm, hf, setError]
        split <;> rfl
  · cases hf : s.timeouts.find? (fun t => t.1 == tid) with
    | none => exact Or.inr (by simp [fireTimeout, hf])
    | some te => exact Or.inl (by simp [fireTimeout, hf, setPending])
  · cases hf : s.timeouts.find? (fun t => t.1 == tid) with
    | none => simp [fireTimeout, hf]
    | some te =>
      simp only [fireTimeout, hf, setPending]
      rw [hfil]

/-- C1: concrete execution showing a stale settlement being committed.
Invocation 1 runs (`eval`, timeout 1 fires, `setPending` attaches its
promise with tag 1); invocation 2 is then triggered (a second `eval`
schedules timeout 2, so `latestInvokeId` caches 2) while `invokeId` is
still 1 because timeout 2 has not yet fired.  Invocation 1's promise now
settles with 42: `setComplete(1, 42)` passes the `invokeId` guard, commits
the stale value, fires `onResult`, and `result` reports 42 — the value of
an invocation older than the latest triggered one. -/
theorem stale_settlement_commits_cex :
    (run (⟨true, true, none⟩ : Cfg Nat Nat)
      [Act.eval ProducerAct.async, Act.fire 1, Act.eval ProducerAct.async]
      (initSys Nat Nat)).attached = [(1, 1)] ∧
    (run (⟨true, true, none⟩ : Cfg Nat Nat)
      [Act.eval ProducerAct.async, Act.fire 1, Act.eval ProducerAct.async]
      (initSys Nat Nat)).cell.invokeId = 1 ∧
    (run (⟨true, true, none⟩ : Cfg Nat Nat)
      [Act.eval ProducerAct.async, Act.fire 1, Act.eval ProducerAct.async]
      (initSys Nat Nat)).cell.cachedLatest = 2 ∧
    (run (⟨true, true, none⟩ : Cfg Nat Nat)
      [Act.eval ProducerAct.async, Act.fire 1, Act.eval ProducerAct.async]
      (initSys Nat Nat)).cell.internalResult = none ∧
    (run (⟨true, true, none⟩ : Cfg Nat Nat)
      [Act.eval ProducerAct.async, Act.fire 1, Act.eval ProducerAct.async,
       Act.settle 1 (Outcome.success 42)]
      (initSys Nat Nat)).cell.internalResult = some 42 ∧
    (run (⟨true, true, none⟩ : Cfg Nat Nat)
      [Act.eval ProducerAct.async, Act.fire 1, Act.eval ProducerAct.async,
       Act.settle 1 (Outcome.success 42)]
      (initSys Nat Nat)).cell.internalStatus = Status.complete ∧
    (run (⟨true, true, none⟩ : Cfg Nat Nat)
      [Act.eval ProducerAct.async, Act.fire 1, Act.eval ProducerAct.async,
       Act.settle 1 (Outcome.success 42)]
      (initSys Nat Nat)).log = [Ev.onResult (some 42)] ∧
    (result (⟨true, true, none⟩ : Cfg Nat Nat) none
      (run (⟨true, true, none⟩ : Cfg Nat Nat)
        [Act.eval ProducerAct.async, Act.fire 1, Act.eval ProducerAct.async,
         Act.settle 1 (Outcome.success 42)]
        (initSys Nat Nat)).cell).1 = some 42 := by
  decide

/-- C2: an invocation in which the producer calls `resolveSync` before
returning is recorded as a synchronous success with that value (flag set,
value stored, `invokeId` bumped, `status` reads `complete`), and no
asynchronous commit for that same invocation can ever occur: since the
synchronous branch never runs `setPending`, no continuation is ever
attached to the promise the producer returned, so its settlement — however
the rest of the execution proceeds, and whether it fulfills or rejects —
leaves the whole system (fields and callback log included) unchanged. -/
theorem sync_resolution_excludes_async_commit (cfg : Cfg R E)
    (pre post : List (Act R E)) (v : R) (o : Outcome R E) :
    (evalLatestInvokeId cfg (ProducerAct.sync v)
      (run cfg pre (initSys R E))).cell.synchronousResult = true ∧
    (evalLatestInvokeId cfg (ProducerAct.sync v)
      (run cfg pre (initSys R E))).cell.internalResult = some v ∧
    (evalLatestInvokeId cfg (ProducerAct.sync v)
      (run cfg pre (initSys R E))).cell.invokeId =
      (run cfg pre (initSys R E)).cell.invokeId + 1 ∧
    status none (evalLatestInvokeId cfg (ProducerAct.sync v)
      (run cfg pre (initSys R E))).cell = Status.complete ∧
    settleProm cfg (run cfg pre (initSys R E)).nextEval o
        (run cfg post (evalLatestInvokeId cfg (ProducerAct.sync v)
          (run cfg pre (initSys R E)))) =
      run cfg post (evalLatestInvokeId cfg (ProducerAct.sync v)
        (run cfg pre (initSys R E))) := by
  refine ⟨rfl, rfl, rfl, ?_, ?_⟩
  · simp [status, statusThatAlwaysTriggers, ownStatus, evalLatestInvokeId]
  · have hidx : idxOk (run cfg pre (initSys R E)) :=
      idxOk_run cfg pre (initSys R E) idxOk_init
    have hfresh : freshIdx (run cfg pre (initSys R E)).nextEval
        (evalLatestInvokeId cfg (ProducerAct.sync v) (run cfg pre (initSys R E))) := by
      refine ⟨?_, ?_, ?_⟩
      · simp only [evalLatestInvokeId]
        exact Nat.lt_succ_self _
      · intro t ht
        simp only [evalLatestInvokeId] at ht
        exact Nat.ne_of_lt (hidx.1 t (List.mem_of_mem_filter ht))
      · intro a2 ha2
        simp only [evalLatestInvokeId] at ha2
        exact Nat.ne_of_lt (hidx.2 a2 ha2)
    exact settleProm_of_freshIdx cfg _ o _ (freshIdx_run cfg _ post _ hfresh)

/-- C6: in every reachable state in which the most recent invocation is
asynchronous (`synchronousResult` is false) and the current invocation id
has no committed outcome, `status` reads `pending` — regardless of any
outcome committed by an older invocation. -/
theorem status_pending_while_latest_unsettled (cfg : Cfg R E)
    (acts : List (Act R E))
    (hs : (run cfg acts (initSys R E)).cell.synchronousResult = false)
    (hc : (run cfg acts (initSys R E)).cell.invokeId ∉
      (run cfg acts (initSys R E)).committed) :
    status none (run cfg acts (initSys R E)).cell = Status.pending := by
  have hinv := committedInv_run cfg acts
  by_cases hst :
      (run cfg acts (initSys R E)).cell.internalStatus = Status.pending
  · simp only [status, statusThatAlwaysTriggers, ownStatus, hs, hst]
    simp
  · exact absurd (hinv hst) hc

/-- C6 witness: after an older invocation committed (value 7), a new
asynchronous invocation whose `setPending` has fired but whose promise has
not settled reads `pending`. -/
theorem status_pending_while_latest_unsettled_witness :
    (run (⟨true, true, some 0⟩ : Cfg Nat Nat)
      [Act.eval ProducerAct.async, Act.fire 1, Act.settle 1 (Outcome.success 7),
       Act.eval ProducerAct.async, Act.fire 2]
      (initSys Nat Nat)).cell.synchronousResult = false ∧
    (run (⟨true, true, some 0⟩ : Cfg Nat Nat)
      [Act.eval ProducerAct.async, Act.fire 1, Act.settle 1 (Outcome.success 7),
       Act.eval ProducerAct.async, Act.fire 2]
      (initSys Nat Nat)).cell.invokeId ∉
      (run (⟨true, true, some 0⟩ : Cfg Nat Nat)
        [Act.eval ProducerAct.async, Act.fire 1, Act.settle 1 (Outcome.success 7),
         Act.eval ProducerAct.async, Act.fire 2]
        (initSys Nat Nat)).committed ∧
    status none (run (⟨true, true, some 0⟩ : Cfg Nat Nat)
      [Act.eval ProducerAct.async, Act.fire 1, Act.settle 1 (Outcome.success 7),
       Act.eval ProducerAct.async, Act.fire 2]
      (initSys Nat Nat)).cell = Status.pending :=
  ⟨by decide, by decide,
   status_pending_while_latest_unsettled (⟨true, true, some 0⟩ : Cfg Nat Nat)
     [Act.eval ProducerAct.async, Act.fire 1, Act.settle 1 (Outcome.success 7),
      Act.eval ProducerAct.async, Act.fire 2] (by decide) (by decide)⟩

end MobxPromise
